import Mathlib

/-!
Verification development for the Open-Hedge client application.

The repository is a React single-page application over a Supabase backend.
The definitions below are shallow embeddings of the pure computations found
in the source files: the fund-dashboard holdings table (change column,
portfolio-weight column, client-side sorting), the portfolio add/remove
handlers, the sentiment-ring score, the Alpha Vantage price-history fetch
helpers, and the debounced-search guards.  Machine numbers are modelled as
exact rationals (the source computes with JS doubles; every claim below is
about the mathematical value of the computed expression).  External
collaborators (UUID generation, Date formatting, Math.random, the backend)
appear as explicit oracle parameters.
-/

namespace OpenHedge

/-! ## Holdings data model (Dashboard.jsx) -/

/-- One row of the `holdings` table as consumed by the fund dashboard:
symbol, issuer, share count and USD value. -/
structure Holding where
  id : Nat
  symbol : String
  issuer : String
  shares_count : Int
  value_usd : ℚ
deriving DecidableEq

/-- The previous-period holdings map.  The source builds a plain object by
`prevRes.data.forEach(h => map[h.symbol] = h.shares_count)`; a later row with
the same symbol overwrites an earlier one, so the lookup finds the last
occurrence. -/
def prevLookup (prev : List Holding) (sym : String) : Option Int :=
  (prev.reverse.find? (fun h => h.symbol = sym)).map (fun h => h.shares_count)

/-- The rendered content of the Change (shares) column.  Constructors
correspond to the rendered strings: `noPrev` renders "-", `isNew` renders
"NEW", `unchanged` renders "0 (0.00%)", and `delta diff percent` renders the
signed difference with its percentage, digits formatted by
`formatNumber`/`toFixed(2)`. -/
inductive ChangeCell where
  | noPrev
  | isNew
  | unchanged
  | delta (diff : Int) (percent : ℚ)
deriving DecidableEq

/-- The change-column computation from the dashboard row renderer
(part_003 lines 295-317 and part_004 lines 351-365, identical logic):
without a previous fund show "-"; a symbol missing from the previous map is
NEW; otherwise compute `diff` and `percent` and render either the signed
delta or the neutral zero state. -/
def changeCell (hasPrevFund : Bool) (prevShares : Option Int) (sharesCount : Int) : ChangeCell :=
  if hasPrevFund then
    match prevShares with
    | none => .isNew
    | some prev =>
      let diff := sharesCount - prev
      let percent : ℚ := if prev ≠ 0 then ((diff : ℚ) / (prev : ℚ)) * 100 else 0
      if diff ≠ 0 then .delta diff percent else .unchanged
  else .noPrev

/-- `holdings.reduce((acc, curr) => acc + (curr.value_usd || 0), 0)`:
the sum of the currently loaded rows' values. -/
def totalLoadedValue (holdings : List Holding) : ℚ :=
  holdings.foldl (fun acc curr => acc + curr.value_usd) 0

/-- Portfolio-weight of a row in the non-paginated dashboard (part_003
lines 292-293): `totalValue > 0 ? value/totalValue*100 : 0` with
`totalValue` the sum over the loaded `holdings` state. -/
def weightDashboard3 (holdings : List Holding) (h : Holding) : ℚ :=
  let totalValue := totalLoadedValue holdings
  if 0 < totalValue then h.value_usd / totalValue * 100 else 0

/-- `totalFundValue` in the paginated dashboard (part_004 fetchContext,
lines 122-150): the sum of `value_usd` over ALL of the fund's holdings rows
returned by a separate, unpaginated query -- independent of which rows are
currently loaded into the table. -/
def totalFundValue4 (allValues : List ℚ) : ℚ :=
  allValues.foldl (fun acc curr => acc + curr) 0

/-- Portfolio-weight of a row in the paginated dashboard (part_004 line
350): `totalFundValue > 0 ? value/totalFundValue*100 : 0`. -/
def weightDashboard4 (totalFundValue : ℚ) (h : Holding) : ℚ :=
  if 0 < totalFundValue then h.value_usd / totalFundValue * 100 else 0

/-- Modelled from the spec: the weight formula the claim asserts for every
rendered row -- the row's value divided by the sum of the currently loaded
rows' values, as a percentage, and 0 when that sum is not positive. -/
def specWeightLoaded (loaded : List Holding) (h : Holding) : ℚ :=
  let total := (loaded.map (fun x => x.value_usd)).sum
  if 0 < total then h.value_usd / total * 100 else 0

/-! ## Client-side sorting (Dashboard.jsx, FundsList.jsx, TrendingPage.jsx) -/

/-- A sort direction, 'asc' or 'desc'. -/
inductive SortDir where
  | asc
  | desc
deriving DecidableEq

/-- The sortable columns of the dashboard holdings table. -/
inductive DashCol where
  | symbol
  | issuer
  | sharesCount
  | change
  | weight
  | valueUsd
deriving DecidableEq

/-- The non-paginated dashboard's sort state: `{ key: null, direction: null }`
initially; both components may be null. -/
structure DashSortConfig where
  key : Option DashCol
  direction : Option SortDir
deriving DecidableEq

/-- `handleSort` of the non-paginated dashboard (part_003 lines 110-118):
the direction cycles asc, then desc, then back to unsorted (key and
direction both null). -/
def handleSortDashboard (sc : DashSortConfig) (k : DashCol) : DashSortConfig :=
  let direction : Option SortDir :=
    if sc.key = some k ∧ sc.direction = some .asc then some .desc
    else if sc.key = some k ∧ sc.direction = some .desc then none
    else some .asc
  ⟨if direction.isSome then some k else none, direction⟩

/-- The per-column "aValue < bValue" comparison used by the dashboard's
`sortedHoldings` comparator, including the computed `change` and `weight`
columns (the weight denominator is the total over the captured `holdings`
list, recomputed inside the comparator exactly as in the source). -/
def keyLT (prevMap : String → Option Int) (holdings : List Holding)
    (k : DashCol) (a b : Holding) : Bool :=
  match k with
  | .symbol => a.symbol < b.symbol
  | .issuer => a.issuer < b.issuer
  | .sharesCount => a.shares_count < b.shares_count
  | .change =>
      a.shares_count - ((prevMap a.symbol).getD 0) <
        b.shares_count - ((prevMap b.symbol).getD 0)
  | .weight =>
      (if 0 < totalLoadedValue holdings then a.value_usd / totalLoadedValue holdings else 0) <
        (if 0 < totalLoadedValue holdings then b.value_usd / totalLoadedValue holdings else 0)
  | .valueUsd => a.value_usd < b.value_usd

/-- The JS comparator passed to `Array.prototype.sort`: -1 / 1 / 0 depending
on the comparison and the active direction. -/
def holdingCmp (prevMap : String → Option Int) (holdings : List Holding)
    (k : DashCol) (asc : Bool) (a b : Holding) : Int :=
  if keyLT prevMap holdings k a b then (if asc then -1 else 1)
  else if keyLT prevMap holdings k b a then (if asc then 1 else -1)
  else 0

/-- Insert one element into an already sorted list, keeping it after every
element it does not strictly precede; with `foldr` this gives a stable sort,
matching the (stable) `Array.prototype.sort`. -/
def insertCmp {α : Type} (cmp : α → α → Int) (x : α) : List α → List α
  | [] => [x]
  | y :: ys => if cmp x y ≤ 0 then x :: y :: ys else y :: insertCmp cmp x ys

/-- Stable comparison sort, the model of `Array.prototype.sort(cmp)`. -/
def stableSort {α : Type} (cmp : α → α → Int) (l : List α) : List α :=
  l.foldr (insertCmp cmp) []

/-- `sortedHoldings` of the non-paginated dashboard (part_003 lines
120-155): a copy of `holdings`, sorted by the comparator when a sort key is
active, the original fetched order otherwise. -/
def sortedHoldings (prevMap : String → Option Int) (holdings : List Holding)
    (sc : DashSortConfig) : List Holding :=
  match sc.key with
  | some k =>
      stableSort (holdingCmp prevMap holdings k (decide (sc.direction = some .asc))) holdings
  | none => holdings

/-- Sort state of the server-sorted tables (FundsList, TrendingPage,
paginated dashboards): a key and a direction, never null. -/
structure KeySortConfig where
  key : String
  direction : SortDir
deriving DecidableEq

/-- `handleSort` of FundsList.jsx (lines 108-119): same column toggles
desc to asc, anything else becomes desc. -/
def handleSortFundsList (sc : KeySortConfig) (k : String) : KeySortConfig :=
  ⟨k, if sc.key = k ∧ sc.direction = .desc then .asc else .desc⟩

/-- `handleSort` of TrendingPage.jsx (lines 185-191): identical toggle
logic to FundsList. -/
def handleSortTrending (sc : KeySortConfig) (k : String) : KeySortConfig :=
  ⟨k, if sc.key = k ∧ sc.direction = .desc then .asc else .desc⟩

/-- The remote query FundsList issues for one batch: search filter, order
clause (UI key 'name' maps to column company_name) and range; the backend
is deterministic, so equal queries return equal rows. -/
structure FundsQuery where
  searchTerm : String
  orderKey : String
  ascending : Bool
  rangeFrom : Nat
  rangeTo : Nat
deriving DecidableEq

/-- Build the FundsList batch query from the UI state (`fetchBatch`,
FundsList.jsx lines 45-97, with BATCH_SIZE = 20). -/
def fundsQuery (searchTerm : String) (sc : KeySortConfig) (page : Nat) : FundsQuery :=
  { searchTerm := searchTerm
    orderKey := if sc.key = "name" then "company_name" else sc.key
    ascending := sc.direction = .asc
    rangeFrom := page * 20
    rangeTo := page * 20 + 20 - 1 }

/-! ## Portfolio CRUD (MyPortfolio.jsx) -/

/-- A security selected from the autocomplete (symbol, description and
optional CUSIP, as shaped by the search handler). -/
structure Asset where
  symbol : String
  description : String
  cusip : Option String
deriving DecidableEq

/-- One entry of the profile document's `portfolio` array.  The numeric
fields are `Option ℚ`: `none` models the JS NaN produced by `parseFloat`
on a non-numeral string. -/
structure PortfolioEntry where
  id : String
  symbol : String
  name : String
  cusip : Option String
  shares : Option ℚ
  avg_price : Option ℚ
  date_added : String
deriving DecidableEq

/-- The MyPortfolio view state touched by the add-position flow. -/
structure PortfolioUI where
  portfolio : List PortfolioEntry
  selectedAsset : Option Asset
  shares : String
  price : String
  inputValue : String
deriving DecidableEq

/-- Digit-string value, most significant first. -/
def digitsVal (l : List Char) : Nat :=
  l.foldl (fun acc c => acc * 10 + (c.toNat - 48)) 0

/-- Whether every character is a decimal digit. -/
def allDigits (l : List Char) : Bool :=
  l.all (fun c => c.isDigit)

/-- Split a character list at the first '.', if any. -/
def splitDot : List Char → List Char × Option (List Char)
  | [] => ([], none)
  | c :: cs =>
      if c = '.' then ([], some cs)
      else
        let r := splitDot cs
        (c :: r.1, r.2)

/-- Model of JavaScript `parseFloat` on plain decimal numerals (optional
leading minus, digits, optional fractional part); `none` models NaN for
anything else.  The number inputs feeding it only produce such numerals. -/
def parseFloat (s : String) : Option ℚ :=
  let p : Bool × List Char :=
    match s.toList with
    | '-' :: rest => (true, rest)
    | cs => (false, cs)
  let q := splitDot p.2
  let mag : Option ℚ :=
    match q.2 with
    | none =>
        if q.1 ≠ [] ∧ allDigits q.1 then some ((digitsVal q.1 : ℕ) : ℚ)
        else none
    | some fp =>
        if q.1 ≠ [] ∧ allDigits q.1 ∧ allDigits fp then
          some ((digitsVal q.1 : ℚ) + (digitsVal fp : ℚ) / ((10 : ℚ) ^ fp.length))
        else none
  mag.map (fun v => if p.1 then -v else v)

/-- `handleAddPosition` (part_000 lines 244-286 / part_001 lines 106-143)
as a state transition.  Oracles: `newId` is the `crypto.randomUUID()`
result, `now` the `new Date().toISOString()` timestamp, `remote` the
portfolio array read back from the profile document, and `updateOk` whether
the profile update succeeded.  The guard returns unchanged state when no
asset is selected, either text field is the empty string (JS falsy), or
there is no session.  On success the remote portfolio gains the new entry,
the local list is refreshed from it, and all four input fields are reset;
on failure the catch branch only logs, leaving every piece of state as it
was. -/
def handleAddPosition (ui : PortfolioUI) (session : Option String)
    (remote : List PortfolioEntry) (newId now : String) (updateOk : Bool) :
    PortfolioUI × List PortfolioEntry :=
  match ui.selectedAsset, session with
  | some asset, some _ =>
    if ui.shares = "" ∨ ui.price = "" then (ui, remote)
    else
      let newEntry : PortfolioEntry :=
        { id := newId
          symbol := asset.symbol
          name := asset.description
          cusip := asset.cusip
          shares := parseFloat ui.shares
          avg_price := parseFloat ui.price
          date_added := now }
      let updatedPortfolio := remote ++ [newEntry]
      if updateOk then
        ({ portfolio := updatedPortfolio
           selectedAsset := none
           shares := ""
           price := ""
           inputValue := "" }, updatedPortfolio)
      else (ui, remote)
  | _, _ => (ui, remote)

/-- `handleRemove` (part_000 lines 288-299): the local list becomes the
filter dropping entries with the given id, set optimistically before the
remote write; the returned pair is (local list, remote portfolio after the
fire-and-forget write, which is the filtered list when the write lands and
the old remote value when it fails -- the local list is never rolled
back). -/
def handleRemove (portfolio remote : List PortfolioEntry) (entryId : String)
    (writeOk : Bool) : List PortfolioEntry × List PortfolioEntry :=
  let updatedPortfolio := portfolio.filter (fun p => p.id ≠ entryId)
  (updatedPortfolio, if writeOk then updatedPortfolio else remote)

/-! ## Sentiment ring (part_000 lines 23-35) -/

/-- The SentimentRing score: 0 when no institution moved, otherwise
`Math.round((increased / total) * 100)`.  `Math.round` is floor(x + 1/2),
which is Mathlib's `round` on ℚ for these non-negative inputs. -/
def sentimentScore (increased decreased : Nat) : Int :=
  let total := increased + decreased
  if total = 0 then 0 else round (((increased : ℚ) / (total : ℚ)) * 100)

/-! ## Alpha Vantage price history (StockRankings.jsx, part_002) -/

/-- The shape of the TIME_SERIES_WEEKLY response as the source inspects it:
whether the 'Note' / 'Information' / 'Error Message' keys are present, and
the 'Weekly Time Series' object modelled as an association list from ISO
date string to closing price. -/
structure PricePayload where
  note : Bool
  information : Bool
  errorMessage : Bool
  weekly : Option (List (String × ℚ))
deriving DecidableEq

/-- One chart point; the date label is kept as a string (the source formats
it with `toLocaleDateString`, modelled here by an oracle). -/
structure ChartPoint where
  date : String
  value : ℚ
deriving DecidableEq

/-- The successful transformation of the weekly series: keep dates on or
after the one-year cutoff (ISO dates compare lexicographically), sort keys
ascending (JS default string sort), and read off the closing values. -/
def weeklySeries (ts : List (String × ℚ)) (cutoff : String) : List ChartPoint :=
  (stableSort (fun a b => if a.1 < b.1 then -1 else if b.1 < a.1 then 1 else 0)
      (ts.filter (fun p => cutoff ≤ p.1))).map (fun p => ⟨p.1, p.2⟩)

/-- One iteration of the fallback random-walk loop: move the price by
`(Math.random() - 0.5) * 5`, clamp at 10, append the point.  `rands i` is
the oracle for the i-th `Math.random()` draw and `dayLabel d` for the label
of the date d days before today. -/
def fallbackStep (rands : Nat → ℚ) (dayLabel : Nat → String)
    (s : ℚ × List ChartPoint) (i : Nat) : ℚ × List ChartPoint :=
  let price := s.1 + (rands i - 1/2) * 5
  let price := if price < 10 then 10 else price
  (price, s.2 ++ [⟨dayLabel ((52 - i) * 7), price⟩])

/-- The synthetic fallback series of `fetchStockData`
(StockRankings.jsx lines 72-90): a 52-step random walk starting from
`150 + Math.random() * 50`. -/
def fallbackSeries (rand0 : ℚ) (rands : Nat → ℚ) (dayLabel : Nat → String) :
    List ChartPoint :=
  ((List.range 52).foldl (fallbackStep rands dayLabel) (150 + rand0 * 50, [])).2

/-- `fetchStockData` (StockRankings.jsx lines 22-91).  `response = none`
models a thrown fetch / non-ok response; every recognized error shape
throws into the catch branch, which returns the synthetic fallback
series. -/
def fetchStockData (response : Option PricePayload) (cutoff : String)
    (rand0 : ℚ) (rands : Nat → ℚ) (dayLabel : Nat → String) : List ChartPoint :=
  match response with
  | none => fallbackSeries rand0 rands dayLabel
  | some d =>
    if d.information then fallbackSeries rand0 rands dayLabel
    else if d.errorMessage then fallbackSeries rand0 rands dayLabel
    else if d.note then fallbackSeries rand0 rands dayLabel
    else
      match d.weekly with
      | none => fallbackSeries rand0 rands dayLabel
      | some ts => weeklySeries ts cutoff

/-- `fetchStockPriceHistory` (part_002 lines 23-50): the alternate stock
view's fetch helper, which returns the EMPTY series -- not a synthetic
fallback -- on every recognized error shape and on a thrown fetch. -/
def fetchStockPriceHistory (response : Option PricePayload) (cutoff : String) :
    List ChartPoint :=
  match response with
  | none => []
  | some d =>
    if d.note ∨ d.information ∨ d.errorMessage then []
    else
      match d.weekly with
      | none => []
      | some ts => weeklySeries ts cutoff

/-- A response is "error shaped" when the fetch threw or the payload
carries one of the recognized error keys or lacks the time-series key. -/
def errorShaped : Option PricePayload → Prop
  | none => True
  | some d => d.note = true ∨ d.information = true ∨ d.errorMessage = true ∨ d.weekly = none

/-! ## Debounced search guards (Navbar.jsx, StockRankings.jsx, part_000) -/

/-- The short-input branch of a debounced search effect: `some opts` means
the guard fired -- no remote query is scheduled and the option list is set
to `opts`; `none` means the effect goes on to schedule a remote fetch. -/
def navbarDebounce {α : Type} (inputValue : String) (options : List α) :
    Option (List α) :=
  if inputValue = "" then some (if 0 < options.length then options else []) else none

/-- StockRankings.jsx lines 138-141: inputs shorter than 2 characters clear
the suggestion list and schedule nothing. -/
def stockRankingsDebounce {α : Type} (tickerInput : String) : Option (List α) :=
  if tickerInput.length < 2 then some [] else none

/-- part_000 lines 193-197: inputs shorter than 2 characters schedule
nothing and set the options to `[selectedAsset]` when an asset is selected,
`[]` otherwise. -/
def myPortfolioDebounce {α : Type} (inputValue : String) (selectedAsset : Option α) :
    Option (List α) :=
  if inputValue.length < 2 then
    some (match selectedAsset with | some a => [a] | none => [])
  else none

/-! ## Helper lemmas -/

theorem insertCmp_perm {α : Type} (cmp : α → α → Int) (x : α) :
    ∀ l : List α, List.Perm (insertCmp cmp x l) (x :: l) := by
  intro l
  induction l with
  | nil => simp [insertCmp]
  | cons y ys ih =>
    by_cases h : cmp x y ≤ 0
    · simp [insertCmp, h]
    · simp only [insertCmp, if_neg h]
      exact (ih.cons y).trans (List.Perm.swap x y ys)

theorem stableSort_perm {α : Type} (cmp : α → α → Int) (l : List α) :
    List.Perm (stableSort cmp l) l := by
  induction l with
  | nil => simp [stableSort]
  | cons a t ih =>
    have : stableSort cmp (a :: t) = insertCmp cmp a (stableSort cmp t) := rfl
    rw [this]
    exact ((insertCmp_perm cmp a (stableSort cmp t)).trans (ih.cons a))

theorem sortedHoldings_perm (prevMap : String → Option Int) (holdings : List Holding)
    (sc : DashSortConfig) : List.Perm (sortedHoldings prevMap holdings sc) holdings := by
  match hk : sc.key with
  | some k =>
      simp only [sortedHoldings, hk]
      exact stableSort_perm _ holdings
  | none =>
      simp only [sortedHoldings, hk]
      exact List.Perm.refl holdings

theorem foldl_add_value (hs : List Holding) :
    ∀ init : ℚ, hs.foldl (fun acc curr => acc + curr.value_usd) init
      = init + (hs.map (fun h => h.value_usd)).sum := by
  induction hs with
  | nil => intro init; simp
  | cons h t ih =>
    intro init
    simp only [List.foldl_cons, List.map_cons, List.sum_cons, ih]
    ring

theorem totalLoadedValue_eq_sum (hs : List Holding) :
    totalLoadedValue hs = (hs.map (fun h => h.value_usd)).sum := by
  simpa using foldl_add_value hs 0

theorem sum_map_mul {α : Type} (f : α → ℚ) (c : ℚ) (l : List α) :
    (l.map (fun x => f x * c)).sum = (l.map f).sum * c := by
  induction l with
  | nil => simp
  | cons a t ih => simp [ih, add_mul]

theorem fallbackStep_foldl_length (rands : Nat → ℚ) (dayLabel : Nat → String) :
    ∀ (l : List Nat) (s : ℚ × List ChartPoint),
      ((l.foldl (fallbackStep rands dayLabel) s).2).length = s.2.length + l.length := by
  intro l
  induction l with
  | nil => intro s; simp
  | cons i t ih =>
    intro s
    rw [List.foldl_cons, ih]
    simp [fallbackStep]
    omega

theorem fallbackSeries_length (rand0 : ℚ) (rands : Nat → ℚ) (dayLabel : Nat → String) :
    (fallbackSeries rand0 rands dayLabel).length = 52 := by
  unfold fallbackSeries
  rw [fallbackStep_foldl_length]
  simp

/-! ## Claim theorems -/

/-- Claim C1: in the dashboard change column with a previous-period fund
present, a symbol absent from the previous holdings map renders NEW; a
symbol present with nonzero prior shares and a nonzero difference renders
the signed difference `cur - p` with its percentage `100 * (cur - p) / p`
of the prior share count; and a zero difference renders the neutral
unchanged state (the string "0 (0.00%)"). -/
theorem change_column_spec (prev : List Holding) (s : String) (cur : Int) :
    (prevLookup prev s = none →
      changeCell true (prevLookup prev s) cur = .isNew)
    ∧ (∀ p : Int, prevLookup prev s = some p → p ≠ 0 → cur - p ≠ 0 →
      changeCell true (prevLookup prev s) cur
        = .delta (cur - p) (100 * ((cur : ℚ) - (p : ℚ)) / (p : ℚ)))
    ∧ (∀ p : Int, prevLookup prev s = some p → cur - p = 0 →
      changeCell true (prevLookup prev s) cur = .unchanged) := by
  refine ⟨fun hnone => ?_, fun p hp hp0 hd => ?_, fun p hp hd => ?_⟩
  · simp [changeCell, hnone]
  · rw [hp]
    have hstep : changeCell true (some p) cur
        = (if cur - p ≠ 0 then
            ChangeCell.delta (cur - p)
              (if p ≠ 0 then ((cur - p : Int) : ℚ) / (p : ℚ) * 100 else 0)
          else ChangeCell.unchanged) := by
      simp [changeCell]
    rw [hstep, if_pos hd, if_pos hp0]
    congr 1
    push_cast
    ring
  · rw [hp]
    simp [changeCell, hd]

/-- Witness for C1 at concrete inputs: previous holdings hold 50 AAPL
shares; TSLA is NEW, AAPL at 60 current shares shows +10 (+20%), AAPL at 50
shows the unchanged state. -/
theorem change_column_spec_witness :
    (prevLookup [⟨1, "AAPL", "Apple", 50, 1⟩] "TSLA" = none
      ∧ changeCell true (prevLookup [⟨1, "AAPL", "Apple", 50, 1⟩] "TSLA") 60 = .isNew)
    ∧ (prevLookup [⟨1, "AAPL", "Apple", 50, 1⟩] "AAPL" = some 50
      ∧ changeCell true (prevLookup [⟨1, "AAPL", "Apple", 50, 1⟩] "AAPL") 60
          = .delta (60 - 50) (100 * ((60 : ℚ) - (50 : ℚ)) / (50 : ℚ)))
    ∧ changeCell true (prevLookup [⟨1, "AAPL", "Apple", 50, 1⟩] "AAPL") 50 = .unchanged := by
  have hn : prevLookup [⟨1, "AAPL", "Apple", 50, 1⟩] "TSLA" = none := by decide
  have hs : prevLookup [⟨1, "AAPL", "Apple", 50, 1⟩] "AAPL" = some 50 := by decide
  refine ⟨⟨hn, (change_column_spec _ _ 60).1 hn⟩,
    ⟨hs, (change_column_spec _ _ 60).2.1 50 hs (by norm_num) (by norm_num)⟩,
    (change_column_spec _ _ 50).2.2 50 hs (by norm_num)⟩

/-- Claim C7 (amended form not needed -- claim holds): for any sort state,
when the loaded total is positive the weight column summed over all
rendered rows is exactly 100 in exact rational arithmetic. -/
theorem weights_sum_to_hundred (prevMap : String → Option Int)
    (sc : DashSortConfig) (hs : List Holding)
    (hpos : 0 < totalLoadedValue hs) :
    ((sortedHoldings prevMap hs sc).map (fun h => weightDashboard3 hs h)).sum = 100 := by
  have hperm := (sortedHoldings_perm prevMap hs sc).map (fun h => weightDashboard3 hs h)
  rw [hperm.sum_eq]
  have hw : ∀ h : Holding,
      weightDashboard3 hs h = h.value_usd * (100 / totalLoadedValue hs) := by
    intro h
    simp only [weightDashboard3, if_pos hpos]
    ring
  simp only [hw]
  rw [sum_map_mul, ← totalLoadedValue_eq_sum, mul_comm, div_mul_cancel₀]
  exact ne_of_gt hpos

/-- Witness for C7: a fund with two loaded holdings of values 75 and 25;
the weights sum to exactly 100. -/
theorem weights_sum_to_hundred_witness :
    0 < totalLoadedValue [⟨1, "A", "A Inc", 10, 75⟩, ⟨2, "B", "B Inc", 20, 25⟩]
    ∧ ((sortedHoldings (fun _ => none)
          [⟨1, "A", "A Inc", 10, 75⟩, ⟨2, "B", "B Inc", 20, 25⟩] ⟨none, none⟩).map
        (fun h => weightDashboard3
          [⟨1, "A", "A Inc", 10, 75⟩, ⟨2, "B", "B Inc", 20, 25⟩] h)).sum = 100 := by
  have hpos : (0 : ℚ) < totalLoadedValue [⟨1, "A", "A Inc", 10, 75⟩, ⟨2, "B", "B Inc", 20, 25⟩] := by
    norm_num [totalLoadedValue]
  exact ⟨hpos, weights_sum_to_hundred (fun _ => none) ⟨none, none⟩ _ hpos⟩

/-- Claim C10: the SentimentRing score is 0 when no institution moved,
equals round(100 * increased / (increased + decreased)) otherwise, and is
always an integer between 0 and 100. -/
theorem sentiment_score_bounds (increased decreased : Nat) :
    (increased + decreased = 0 → sentimentScore increased decreased = 0)
    ∧ (increased + decreased ≠ 0 →
        sentimentScore increased decreased
          = round ((100 : ℚ) * (increased : ℚ) / ((increased : ℚ) + (decreased : ℚ))))
    ∧ 0 ≤ sentimentScore increased decreased
    ∧ sentimentScore increased decreased ≤ 100 := by
  by_cases h : increased + decreased = 0
  · refine ⟨fun _ => by simp [sentimentScore, h], fun hne => absurd h hne, ?_, ?_⟩ <;>
      simp [sentimentScore, h]
  · have hT : (0 : ℚ) < ((increased + decreased : Nat) : ℚ) := by
      exact_mod_cast Nat.pos_of_ne_zero h
    have hx0 : (0 : ℚ) ≤ ((increased : ℚ) / ((increased + decreased : Nat) : ℚ)) * 100 := by
      positivity
    have hx100 : ((increased : ℚ) / ((increased + decreased : Nat) : ℚ)) * 100 ≤ 100 := by
      have hle : (increased : ℚ) ≤ ((increased + decreased : Nat) : ℚ) := by
        exact_mod_cast Nat.le_add_right increased decreased
      have : (increased : ℚ) / ((increased + decreased : Nat) : ℚ) ≤ 1 :=
        (div_le_one hT).mpr hle
      nlinarith
    have hscore : sentimentScore increased decreased
        = round (((increased : ℚ) / ((increased + decreased : Nat) : ℚ)) * 100) := by
      simp [sentimentScore, h]
    refine ⟨fun h0 => absurd h0 h, fun _ => ?_, ?_, ?_⟩
    · rw [hscore]
      congr 1
      push_cast
      ring
    · rw [hscore, round_eq]
      rw [Int.floor_nonneg]
      linarith
    · rw [hscore, round_eq]
      have hle : ((increased : ℚ) / ((increased + decreased : Nat) : ℚ)) * 100 + 1/2
          ≤ (100 : ℚ) + 1/2 := by linarith
      calc ⌊((increased : ℚ) / ((increased + decreased : Nat) : ℚ)) * 100 + 1/2⌋
          ≤ ⌊(100 : ℚ) + 1/2⌋ := Int.floor_mono hle
        _ = 100 := by
            rw [Int.floor_eq_iff]
            constructor <;> norm_num

/-- Witness for C10 at increased = 3, decreased = 1: total nonzero, score
is round(75) with the bounds holding. -/
theorem sentiment_score_bounds_witness :
    (3 + 1 ≠ 0)
    ∧ sentimentScore 3 1 = round ((100 : ℚ) * (3 : ℚ) / ((3 : ℚ) + (1 : ℚ)))
    ∧ 0 ≤ sentimentScore 3 1 ∧ sentimentScore 3 1 ≤ 100 :=
  ⟨by norm_num, (sentiment_score_bounds 3 1).2.1 (by norm_num),
    (sentiment_score_bounds 3 1).2.2.1, (sentiment_score_bounds 3 1).2.2.2⟩

/-- Claim C2: with an asset selected, non-empty numeric share and price
inputs, and an authenticated session, a successful add appends exactly one
entry (parsed shares and price, the freshly generated id, the current
timestamp) to the remote portfolio array, preserving all pre-existing
entries in order; the new id differs from every existing entry's id
(freshness of `crypto.randomUUID` is the collaborator contract recorded as
the `hfresh` hypothesis); and the selected asset, shares, price and search
input are all reset to empty. -/
theorem add_position_appends (ui : PortfolioUI) (userId : String)
    (remote : List PortfolioEntry) (asset : Asset) (newId now : String) (qs qp : ℚ)
    (hsel : ui.selectedAsset = some asset)
    (hsh : ui.shares ≠ "") (hpr : ui.price ≠ "")
    (hqs : parseFloat ui.shares = some qs) (hqp : parseFloat ui.price = some qp)
    (hfresh : ∀ e ∈ remote, e.id ≠ newId) :
    (handleAddPosition ui (some userId) remote newId now true).2
      = remote ++ [⟨newId, asset.symbol, asset.description, asset.cusip, some qs, some qp, now⟩]
    ∧ (∀ e ∈ remote, e.id ≠ newId)
    ∧ (handleAddPosition ui (some userId) remote newId now true).1.selectedAsset = none
    ∧ (handleAddPosition ui (some userId) remote newId now true).1.shares = ""
    ∧ (handleAddPosition ui (some userId) remote newId now true).1.price = ""
    ∧ (handleAddPosition ui (some userId) remote newId now true).1.inputValue = "" := by
  have hguard : ¬ (ui.shares = "" ∨ ui.price = "") := by
    push_neg
    exact ⟨hsh, hpr⟩
  simp only [handleAddPosition, hsel, if_neg hguard, if_pos trivial, hqs, hqp]
  refine ⟨?_, hfresh, ?_, ?_, ?_, ?_⟩ <;> first | rfl | trivial

/-- Witness for C2: adding 10 shares of AAPL at 150.00 to a one-entry
portfolio appends exactly the expected entry and resets the inputs. -/
theorem add_position_appends_witness :
    parseFloat "10" = some 10
    ∧ parseFloat "150.00" = some 150
    ∧ (handleAddPosition
        ⟨[], some ⟨"AAPL", "Apple Inc", some "037833100"⟩, "10", "150.00", "AAPL"⟩
        (some "u1") [⟨"e0", "MSFT", "Microsoft", none, some 5, some 10, "2024-01-01"⟩]
        "uuid-1" "2025-01-01" true).2
      = [⟨"e0", "MSFT", "Microsoft", none, some 5, some 10, "2024-01-01"⟩]
        ++ [⟨"uuid-1", "AAPL", "Apple Inc", some "037833100", some 10, some 150, "2025-01-01"⟩]
    ∧ (handleAddPosition
        ⟨[], some ⟨"AAPL", "Apple Inc", some "037833100"⟩, "10", "150.00", "AAPL"⟩
        (some "u1") [⟨"e0", "MSFT", "Microsoft", none, some 5, some 10, "2024-01-01"⟩]
        "uuid-1" "2025-01-01" true).1.selectedAsset = none
    ∧ (handleAddPosition
        ⟨[], some ⟨"AAPL", "Apple Inc", some "037833100"⟩, "10", "150.00", "AAPL"⟩
        (some "u1") [⟨"e0", "MSFT", "Microsoft", none, some 5, some 10, "2024-01-01"⟩]
        "uuid-1" "2025-01-01" true).1.shares = ""
    ∧ (handleAddPosition
        ⟨[], some ⟨"AAPL", "Apple Inc", some "037833100"⟩, "10", "150.00", "AAPL"⟩
        (some "u1") [⟨"e0", "MSFT", "Microsoft", none, some 5, some 10, "2024-01-01"⟩]
        "uuid-1" "2025-01-01" true).1.price = ""
    ∧ (handleAddPosition
        ⟨[], some ⟨"AAPL", "Apple Inc", some "037833100"⟩, "10", "150.00", "AAPL"⟩
        (some "u1") [⟨"e0", "MSFT", "Microsoft", none, some 5, some 10, "2024-01-01"⟩]
        "uuid-1" "2025-01-01" true).1.inputValue = "" := by
  have hqs : parseFloat "10" = some 10 := by
    have h : splitDot ['1', '0'] = (['1', '0'], none) := by decide
    simp [parseFloat, h, digitsVal, allDigits]
  have hqp : parseFloat "150.00" = some 150 := by
    have h : splitDot ['1', '5', '0', '.', '0', '0'] = (['1', '5', '0'], some ['0', '0']) := by
      decide
    simp [parseFloat, h, digitsVal, allDigits]
  have main := add_position_appends
    ⟨[], some ⟨"AAPL", "Apple Inc", some "037833100"⟩, "10", "150.00", "AAPL"⟩
    "u1" [⟨"e0", "MSFT", "Microsoft", none, some 5, some 10, "2024-01-01"⟩]
    ⟨"AAPL", "Apple Inc", some "037833100"⟩ "uuid-1" "2025-01-01" 10 150
    rfl (by decide) (by decide) hqs hqp (by decide)
  exact ⟨hqs, hqp, main.1, main.2.2.1, main.2.2.2.1, main.2.2.2.2.1, main.2.2.2.2.2⟩

/-- Claim C9: when the remote profile update fails, the add-position
operation leaves the view state (local portfolio, selected asset, shares,
price, search input) and the remote portfolio array exactly as they were,
for every input. -/
theorem add_position_error_unchanged (ui : PortfolioUI) (session : Option String)
    (remote : List PortfolioEntry) (newId now : String) :
    handleAddPosition ui session remote newId now false = (ui, remote) := by
  cases hsel : ui.selectedAsset with
  | none => simp [handleAddPosition, hsel]
  | some asset =>
    cases session with
    | none => simp [handleAddPosition, hsel]
    | some u =>
      by_cases h : ui.shares = "" ∨ ui.price = ""
      · simp [handleAddPosition, hsel, h]
      · simp [handleAddPosition, hsel, h]

/-- Claim C8: removing an entry immediately replaces the local list with
the previous list minus exactly the entry bearing the removed id, all other
entries kept in order, and the local result is the same whether the
fire-and-forget remote write succeeds or fails (no rollback); a failed
write leaves the remote portfolio at its old value while the local list
stays filtered. -/
theorem remove_optimistic (l₁ l₂ remote : List PortfolioEntry) (e : PortfolioEntry)
    (h₁ : ∀ x ∈ l₁, x.id ≠ e.id) (h₂ : ∀ x ∈ l₂, x.id ≠ e.id) :
    (∀ writeOk : Bool,
      (handleRemove (l₁ ++ e :: l₂) remote e.id writeOk).1 = l₁ ++ l₂)
    ∧ (handleRemove (l₁ ++ e :: l₂) remote e.id false).2 = remote := by
  have hfilter : (l₁ ++ e :: l₂).filter (fun p => p.id ≠ e.id) = l₁ ++ l₂ := by
    rw [List.filter_append]
    congr 1
    · rw [List.filter_eq_self]
      intro a ha
      simpa using h₁ a ha
    · rw [List.filter_cons]
      have hd : (decide (e.id ≠ e.id)) = false := by simp
      rw [hd]
      simp only [Bool.false_eq_true, if_false]
      rw [List.filter_eq_self]
      intro a ha
      simpa using h₂ a ha
  exact ⟨fun writeOk => hfilter, rfl⟩

/-- Witness for C8: removing the middle entry of a three-entry portfolio
keeps the outer entries in order, identically under a succeeding and a
failing remote write, and a failing write leaves the remote list
untouched. -/
theorem remove_optimistic_witness :
    (∀ x ∈ [(⟨"e1", "AAPL", "Apple", none, some 1, some 2, "d1"⟩ : PortfolioEntry)],
      x.id ≠ "e2")
    ∧ (handleRemove
        [⟨"e1", "AAPL", "Apple", none, some 1, some 2, "d1"⟩,
         ⟨"e2", "MSFT", "Microsoft", none, some 3, some 4, "d2"⟩,
         ⟨"e3", "NVDA", "Nvidia", none, some 5, some 6, "d3"⟩]
        [⟨"e1", "AAPL", "Apple", none, some 1, some 2, "d1"⟩,
         ⟨"e2", "MSFT", "Microsoft", none, some 3, some 4, "d2"⟩,
         ⟨"e3", "NVDA", "Nvidia", none, some 5, some 6, "d3"⟩] "e2" true).1
      = [⟨"e1", "AAPL", "Apple", none, some 1, some 2, "d1"⟩,
         ⟨"e3", "NVDA", "Nvidia", none, some 5, some 6, "d3"⟩]
    ∧ (handleRemove
        [⟨"e1", "AAPL", "Apple", none, some 1, some 2, "d1"⟩,
         ⟨"e2", "MSFT", "Microsoft", none, some 3, some 4, "d2"⟩,
         ⟨"e3", "NVDA", "Nvidia", none, some 5, some 6, "d3"⟩]
        [⟨"e1", "AAPL", "Apple", none, some 1, some 2, "d1"⟩,
         ⟨"e2", "MSFT", "Microsoft", none, some 3, some 4, "d2"⟩,
         ⟨"e3", "NVDA", "Nvidia", none, some 5, some 6, "d3"⟩] "e2" false).1
      = [⟨"e1", "AAPL", "Apple", none, some 1, some 2, "d1"⟩,
         ⟨"e3", "NVDA", "Nvidia", none, some 5, some 6, "d3"⟩]
    ∧ (handleRemove
        [⟨"e1", "AAPL", "Apple", none, some 1, some 2, "d1"⟩,
         ⟨"e2", "MSFT", "Microsoft", none, some 3, some 4, "d2"⟩,
         ⟨"e3", "NVDA", "Nvidia", none, some 5, some 6, "d3"⟩]
        [⟨"e1", "AAPL", "Apple", none, some 1, some 2, "d1"⟩,
         ⟨"e2", "MSFT", "Microsoft", none, some 3, some 4, "d2"⟩,
         ⟨"e3", "NVDA", "Nvidia", none, some 5, some 6, "d3"⟩] "e2" false).2
      = [⟨"e1", "AAPL", "Apple", none, some 1, some 2, "d1"⟩,
         ⟨"e2", "MSFT", "Microsoft", none, some 3, some 4, "d2"⟩,
         ⟨"e3", "NVDA", "Nvidia", none, some 5, some 6, "d3"⟩] := by
  have main := remove_optimistic
    [⟨"e1", "AAPL", "Apple", none, some 1, some 2, "d1"⟩]
    [⟨"e3", "NVDA", "Nvidia", none, some 5, some 6, "d3"⟩]
    [⟨"e1", "AAPL", "Apple", none, some 1, some 2, "d1"⟩,
     ⟨"e2", "MSFT", "Microsoft", none, some 3, some 4, "d2"⟩,
     ⟨"e3", "NVDA", "Nvidia", none, some 5, some 6, "d3"⟩]
    ⟨"e2", "MSFT", "Microsoft", none, some 3, some 4, "d2"⟩
    (by decide) (by decide)
  exact ⟨by decide, main.1 true, main.1 false, main.2⟩

/-- Counterexample to C3 as stated: in the paginated dashboard (part_004),
with a fund holding two positions worth 100 each but only the first row
loaded into the table, the rendered weight is 50 (value over the
whole-fund total) while the claim's formula over the currently loaded rows
gives 100. -/
theorem weight_loaded_counterexample :
    weightDashboard4 (totalFundValue4 [100, 100]) ⟨1, "A", "A Inc", 10, 100⟩
      ≠ specWeightLoaded [⟨1, "A", "A Inc", 10, 100⟩] ⟨1, "A", "A Inc", 10, 100⟩ := by
  have h1 : weightDashboard4 (totalFundValue4 [100, 100]) ⟨1, "A", "A Inc", 10, 100⟩ = 50 := by
    norm_num [weightDashboard4, totalFundValue4]
  have h2 : specWeightLoaded [⟨1, "A", "A Inc", 10, 100⟩] ⟨1, "A", "A Inc", 10, 100⟩ = 100 := by
    norm_num [specWeightLoaded]
  rw [h1, h2]
  norm_num

/-- Claim C3 amended: in the non-paginated dashboard the weight is the
row's value over the sum of the loaded rows (0 when that sum is not
positive); in the paginated dashboard (part_004) the denominator is instead
the whole-fund total from a separate unpaginated query, independent of the
loaded rows (0 when that total is not positive). -/
theorem weight_formulas :
    (∀ (hs : List Holding) (h : Holding), 0 < totalLoadedValue hs →
        weightDashboard3 hs h * totalLoadedValue hs = h.value_usd * 100)
    ∧ (∀ (hs : List Holding) (h : Holding), ¬ 0 < totalLoadedValue hs →
        weightDashboard3 hs h = 0)
    ∧ (∀ (allValues : List ℚ) (h : Holding), 0 < totalFundValue4 allValues →
        weightDashboard4 (totalFundValue4 allValues) h * totalFundValue4 allValues
          = h.value_usd * 100)
    ∧ (∀ (allValues : List ℚ) (h : Holding), ¬ 0 < totalFundValue4 allValues →
        weightDashboard4 (totalFundValue4 allValues) h = 0) := by
  refine ⟨fun hs h hpos => ?_, fun hs h hneg => ?_,
    fun av h hpos => ?_, fun av h hneg => ?_⟩
  · simp only [weightDashboard3, if_pos hpos]
    field_simp
  · simp only [weightDashboard3, if_neg hneg]
  · simp only [weightDashboard4, if_pos hpos]
    field_simp
  · simp only [weightDashboard4, if_neg hneg]

/-- Witness for C3 (amended): concrete evaluations of both weight formulas
at positive and non-positive totals. -/
theorem weight_formulas_witness :
    (0 < totalLoadedValue [⟨1, "A", "A Inc", 10, 75⟩, ⟨2, "B", "B Inc", 20, 25⟩]
      ∧ weightDashboard3 [⟨1, "A", "A Inc", 10, 75⟩, ⟨2, "B", "B Inc", 20, 25⟩]
            ⟨1, "A", "A Inc", 10, 75⟩
          * totalLoadedValue [⟨1, "A", "A Inc", 10, 75⟩, ⟨2, "B", "B Inc", 20, 25⟩]
        = (75 : ℚ) * 100)
    ∧ (¬ 0 < totalLoadedValue ([] : List Holding)
      ∧ weightDashboard3 [] ⟨1, "A", "A Inc", 10, 75⟩ = 0)
    ∧ (0 < totalFundValue4 [100, 100]
      ∧ weightDashboard4 (totalFundValue4 [100, 100]) ⟨1, "A", "A Inc", 10, 100⟩
          * totalFundValue4 [100, 100] = (100 : ℚ) * 100)
    ∧ (¬ 0 < totalFundValue4 ([] : List ℚ)
      ∧ weightDashboard4 (totalFundValue4 []) ⟨1, "A", "A Inc", 10, 100⟩ = 0) := by
  have t1 : (0 : ℚ) < totalLoadedValue [⟨1, "A", "A Inc", 10, 75⟩, ⟨2, "B", "B Inc", 20, 25⟩] := by
    norm_num [totalLoadedValue]
  have t2 : ¬ (0 : ℚ) < totalLoadedValue ([] : List Holding) := by
    norm_num [totalLoadedValue]
  have t3 : (0 : ℚ) < totalFundValue4 [100, 100] := by
    norm_num [totalFundValue4]
  have t4 : ¬ (0 : ℚ) < totalFundValue4 ([] : List ℚ) := by
    norm_num [totalFundValue4]
  exact ⟨⟨t1, weight_formulas.1 _ _ t1⟩, ⟨t2, weight_formulas.2.1 _ _ t2⟩,
    ⟨t3, weight_formulas.2.2.1 _ _ t3⟩, ⟨t4, weight_formulas.2.2.2 _ _ t4⟩⟩

/-- Counterexample to C4 as stated, in each cited instance: in the
dashboard table, starting from the default unsorted state, toggling the
Ticker column twice leaves the rows sorted descending by symbol, not in
their original order; in FundsList, toggling the inactive Fund Name column
twice from the default (aum, desc) state leaves the configuration at
(company_name, asc) and reissues a page-0 query ordered by a different
column than the original; likewise in TrendingPage for an inactive
column. -/
theorem sort_toggle_twice_counterexample :
    (sortedHoldings (fun _ => none)
      [⟨1, "A", "A Inc", 10, 100⟩, ⟨2, "B", "B Inc", 20, 50⟩]
      (handleSortDashboard (handleSortDashboard ⟨none, none⟩ .symbol) .symbol)
      ≠ [⟨1, "A", "A Inc", 10, 100⟩, ⟨2, "B", "B Inc", 20, 50⟩])
    ∧ handleSortFundsList (handleSortFundsList ⟨"aum", .desc⟩ "name") "name"
        ≠ (⟨"aum", .desc⟩ : KeySortConfig)
    ∧ fundsQuery "" (handleSortFundsList (handleSortFundsList ⟨"aum", .desc⟩ "name") "name") 0
        ≠ fundsQuery "" ⟨"aum", .desc⟩ 0
    ∧ handleSortTrending (handleSortTrending ⟨"total_value_usd", .desc⟩ "symbol") "symbol"
        ≠ (⟨"total_value_usd", .desc⟩ : KeySortConfig) := by
  refine ⟨?_, by decide, by decide, by decide⟩
  have hcfg : handleSortDashboard (handleSortDashboard ⟨none, none⟩ .symbol) .symbol
      = ⟨some .symbol, some .desc⟩ := by decide
  have hAB : keyLT (fun _ => none)
      [⟨1, "A", "A Inc", 10, 100⟩, ⟨2, "B", "B Inc", 20, 50⟩] .symbol
      ⟨1, "A", "A Inc", 10, 100⟩ ⟨2, "B", "B Inc", 20, 50⟩ = true := by
    simp [keyLT, String.lt_iff_toList_lt]
    decide
  have hBA : keyLT (fun _ => none)
      [⟨1, "A", "A Inc", 10, 100⟩, ⟨2, "B", "B Inc", 20, 50⟩] .symbol
      ⟨2, "B", "B Inc", 20, 50⟩ ⟨1, "A", "A Inc", 10, 100⟩ = false := by
    simp [keyLT, String.le_iff_toList_le]
    decide
  rw [hcfg]
  have heq : sortedHoldings (fun _ => none)
      [⟨1, "A", "A Inc", 10, 100⟩, ⟨2, "B", "B Inc", 20, 50⟩]
      ⟨some .symbol, some .desc⟩
      = [⟨2, "B", "B Inc", 20, 50⟩, ⟨1, "A", "A Inc", 10, 100⟩] := by
    simp [sortedHoldings, stableSort, insertCmp, holdingCmp, hAB, hBA]
  rw [heq]
  decide

/-- Claim C4 amended: a sortable table returns to its original row order
after a full direction cycle.  In the dashboard instance (asc, desc, none)
three successive toggles of the same column restore the unsorted original
order for every column and row list.  In the FundsList/TrendingPage
instances (desc/asc toggle) two successive toggles of a column restore the
original sort configuration -- and with it the identical page-0 query and
row order -- exactly when that column is already the active sort column,
in either direction; toggling an inactive column twice instead leaves the
table sorted ascending by that column. -/
theorem sort_cycle_restores :
    (∀ (k : DashCol) (prevMap : String → Option Int) (hs : List Holding),
        sortedHoldings prevMap hs
          (handleSortDashboard (handleSortDashboard (handleSortDashboard ⟨none, none⟩ k) k) k)
          = hs)
    ∧ (∀ (sc : KeySortConfig) (k : String),
        handleSortFundsList (handleSortFundsList sc k) k = sc ↔ sc.key = k)
    ∧ (∀ (sc : KeySortConfig) (k searchTerm : String), sc.key = k →
        fundsQuery searchTerm (handleSortFundsList (handleSortFundsList sc k) k) 0
          = fundsQuery searchTerm sc 0)
    ∧ (∀ (sc : KeySortConfig) (k : String), sc.key ≠ k →
        handleSortFundsList (handleSortFundsList sc k) k = ⟨k, .asc⟩)
    ∧ (∀ (sc : KeySortConfig) (k : String),
        handleSortTrending (handleSortTrending sc k) k = sc ↔ sc.key = k)
    ∧ (∀ (sc : KeySortConfig) (k : String), sc.key ≠ k →
        handleSortTrending (handleSortTrending sc k) k = ⟨k, .asc⟩) := by
  have hfl : ∀ (sc : KeySortConfig) (k : String),
      handleSortFundsList (handleSortFundsList sc k) k = sc ↔ sc.key = k := by
    rintro ⟨key, dir⟩ k
    constructor
    · intro h
      have hk : (handleSortFundsList (handleSortFundsList ⟨key, dir⟩ k) k).key = k := rfl
      rw [h] at hk
      exact hk
    · rintro rfl
      cases dir <;> simp [handleSortFundsList]
  have htr : ∀ (sc : KeySortConfig) (k : String),
      handleSortTrending (handleSortTrending sc k) k = sc ↔ sc.key = k := by
    rintro ⟨key, dir⟩ k
    constructor
    · intro h
      have hk : (handleSortTrending (handleSortTrending ⟨key, dir⟩ k) k).key = k := rfl
      rw [h] at hk
      exact hk
    · rintro rfl
      cases dir <;> simp [handleSortTrending]
  refine ⟨fun k prevMap hs => ?_, hfl, fun sc k searchTerm hk => ?_,
    fun sc k hk => ?_, htr, fun sc k hk => ?_⟩
  · have hcfg : handleSortDashboard
        (handleSortDashboard (handleSortDashboard ⟨none, none⟩ k) k) k
        = ⟨none, none⟩ := by
      simp [handleSortDashboard]
    rw [hcfg]
    rfl
  · rw [(hfl sc k).mpr hk]
  · rcases sc with ⟨key, dir⟩
    simp only [handleSortFundsList]
    have hne : ¬ (key = k ∧ dir = SortDir.desc) := by
      intro hcl
      exact hk hcl.1
    rw [if_neg hne]
    simp
  · rcases sc with ⟨key, dir⟩
    simp only [handleSortTrending]
    have hne : ¬ (key = k ∧ dir = SortDir.desc) := by
      intro hcl
      exact hk hcl.1
    rw [if_neg hne]
    simp

/-- Witness for C4 (amended): a concrete row list restored by three
dashboard toggles; FundsList restoring in two toggles from the active
column in both directions (with the identical page-0 query); FundsList and
TrendingPage ending ascending on an inactive column. -/
theorem sort_cycle_restores_witness :
    sortedHoldings (fun _ => none) [⟨1, "A", "A Inc", 10, 100⟩]
      (handleSortDashboard (handleSortDashboard
        (handleSortDashboard ⟨none, none⟩ .symbol) .symbol) .symbol)
      = [⟨1, "A", "A Inc", 10, 100⟩]
    ∧ handleSortFundsList (handleSortFundsList ⟨"aum", .desc⟩ "aum") "aum" = ⟨"aum", .desc⟩
    ∧ handleSortFundsList (handleSortFundsList ⟨"aum", .asc⟩ "aum") "aum" = ⟨"aum", .asc⟩
    ∧ ((⟨"aum", .desc⟩ : KeySortConfig).key = "aum"
        ∧ fundsQuery "" (handleSortFundsList (handleSortFundsList ⟨"aum", .desc⟩ "aum") "aum") 0
            = fundsQuery "" ⟨"aum", .desc⟩ 0)
    ∧ ((⟨"aum", .desc⟩ : KeySortConfig).key ≠ "name"
        ∧ handleSortFundsList (handleSortFundsList ⟨"aum", .desc⟩ "name") "name"
            = ⟨"name", .asc⟩)
    ∧ handleSortTrending (handleSortTrending ⟨"total_value_usd", .asc⟩ "total_value_usd")
        "total_value_usd" = ⟨"total_value_usd", .asc⟩
    ∧ ((⟨"total_value_usd", .desc⟩ : KeySortConfig).key ≠ "symbol"
        ∧ handleSortTrending (handleSortTrending ⟨"total_value_usd", .desc⟩ "symbol") "symbol"
            = ⟨"symbol", .asc⟩) :=
  ⟨sort_cycle_restores.1 .symbol (fun _ => none) [⟨1, "A", "A Inc", 10, 100⟩],
    (sort_cycle_restores.2.1 ⟨"aum", .desc⟩ "aum").mpr rfl,
    (sort_cycle_restores.2.1 ⟨"aum", .asc⟩ "aum").mpr rfl,
    ⟨rfl, sort_cycle_restores.2.2.1 ⟨"aum", .desc⟩ "aum" "" rfl⟩,
    ⟨by decide, sort_cycle_restores.2.2.2.1 ⟨"aum", .desc⟩ "name" (by decide)⟩,
    (sort_cycle_restores.2.2.2.2.1 ⟨"total_value_usd", .asc⟩ "total_value_usd").mpr rfl,
    ⟨by decide, sort_cycle_restores.2.2.2.2.2 ⟨"total_value_usd", .desc⟩ "symbol" (by decide)⟩⟩

/-- Counterexample to C5 as stated: the alternate stock view's price fetch
(part_002) returns the empty series -- zero points, not 52 -- on a
rate-limit-shaped payload. -/
theorem price_history_empty_counterexample :
    errorShaped (some ⟨true, false, false, none⟩)
    ∧ (fetchStockPriceHistory (some ⟨true, false, false, none⟩) "2024-01-01").length = 0
    ∧ (0 : Nat) ≠ 52 := by
  refine ⟨Or.inl rfl, ?_, by norm_num⟩
  simp [fetchStockPriceHistory]

/-- Claim C5 amended: on every error-shaped response (rate-limit note,
information, error-message key, missing time-series key, or a thrown
fetch), `fetchStockData` in StockRankings.jsx returns the synthetic
fallback series of exactly 52 weekly points, while `fetchStockPriceHistory`
in the alternate stock view (part_002) returns the empty series. -/
theorem price_fallback_behavior :
    (∀ (response : Option PricePayload) (cutoff : String) (rand0 : ℚ)
        (rands : Nat → ℚ) (dayLabel : Nat → String), errorShaped response →
        (fetchStockData response cutoff rand0 rands dayLabel).length = 52)
    ∧ (∀ (response : Option PricePayload) (cutoff : String), errorShaped response →
        fetchStockPriceHistory response cutoff = []) := by
  constructor
  · intro response cutoff rand0 rands dayLabel herr
    match response with
    | none => exact fallbackSeries_length rand0 rands dayLabel
    | some d =>
      by_cases hi : d.information = true
      · simp [fetchStockData, hi, fallbackSeries_length]
      · by_cases he : d.errorMessage = true
        · simp [fetchStockData, hi, he, fallbackSeries_length]
        · by_cases hn : d.note = true
          · simp [fetchStockData, hi, he, hn, fallbackSeries_length]
          · have hw : d.weekly = none := by
              rcases herr with h | h | h | h
              · exact absurd h hn
              · exact absurd h hi
              · exact absurd h he
              · exact h
            simp [fetchStockData, hi, he, hn, hw, fallbackSeries_length]
  · intro response cutoff herr
    match response with
    | none => rfl
    | some d =>
      by_cases h : d.note = true ∨ d.information = true ∨ d.errorMessage = true
      · simp [fetchStockPriceHistory, h]
      · have hw : d.weekly = none := by
          rcases herr with h1 | h1 | h1 | h1
          · exact absurd (Or.inl h1) h
          · exact absurd (Or.inr (Or.inl h1)) h
          · exact absurd (Or.inr (Or.inr h1)) h
          · exact h1
        simp [fetchStockPriceHistory, h, hw]

/-- Witness for C5 (amended): a thrown fetch yields the 52-point fallback
in StockRankings.jsx, and a rate-limit note yields the empty series in the
part_002 instance. -/
theorem price_fallback_behavior_witness :
    errorShaped (none : Option PricePayload)
    ∧ (fetchStockData none "2024-01-01" 0 (fun _ => 0) (fun _ => "")).length = 52
    ∧ errorShaped (some ⟨true, false, false, some []⟩)
    ∧ fetchStockPriceHistory (some ⟨true, false, false, some []⟩) "2024-01-01" = [] :=
  ⟨trivial,
    price_fallback_behavior.1 none "2024-01-01" 0 (fun _ => 0) (fun _ => "") trivial,
    Or.inl rfl,
    price_fallback_behavior.2 (some ⟨true, false, false, some []⟩) "2024-01-01" (Or.inl rfl)⟩

/-- Counterexample to C6 as stated: in the MyPortfolio search with a
selected asset, a one-character input (below the 2-character minimum)
issues no query but sets the option list to the singleton holding the
selected asset -- neither cleared nor the previous list. -/
theorem debounce_selected_counterexample :
    "x".length < 2
    ∧ myPortfolioDebounce "x" (some "AAPL") = some ["AAPL"]
    ∧ (["AAPL"] : List String) ≠ []
    ∧ (["AAPL"] : List String) ≠ ["MSFT", "GOOG"] := by
  exact ⟨by decide, by decide, by decide, by decide⟩

/-- Claim C6 amended: for inputs below the instance's minimum length no
remote query is scheduled (the guard returns `some`), and the option list
is left unchanged (Navbar, empty input), cleared (StockRankings), or reset
to the singleton of the selected asset, empty when none is selected
(MyPortfolio). -/
theorem debounce_guard_behavior :
    (∀ (α : Type) (options : List α), navbarDebounce "" options = some options)
    ∧ (∀ (α : Type) (input : String), input.length < 2 →
        (stockRankingsDebounce input : Option (List α)) = some [])
    ∧ (∀ (α : Type) (input : String) (a : α), input.length < 2 →
        myPortfolioDebounce input (some a) = some [a])
    ∧ (∀ (α : Type) (input : String), input.length < 2 →
        myPortfolioDebounce input (none : Option α) = some []) := by
  refine ⟨fun α options => ?_, fun α input h => ?_,
    fun α input a h => ?_, fun α input h => ?_⟩
  · cases options <;> simp [navbarDebounce]
  · simp [stockRankingsDebounce, h]
  · simp [myPortfolioDebounce, h]
  · simp [myPortfolioDebounce, h]

/-- Witness for C6 (amended): concrete short inputs at each instance. -/
theorem debounce_guard_behavior_witness :
    navbarDebounce "" ["AAPL"] = some ["AAPL"]
    ∧ ("A".length < 2 ∧ stockRankingsDebounce "A" = some ([] : List String))
    ∧ ("A".length < 2 ∧ myPortfolioDebounce "A" (some "MSFT") = some ["MSFT"])
    ∧ ("".length < 2 ∧ myPortfolioDebounce "" (none : Option String) = some []) :=
  ⟨debounce_guard_behavior.1 String ["AAPL"],
    ⟨by decide, debounce_guard_behavior.2.1 String "A" (by decide)⟩,
    ⟨by decide, debounce_guard_behavior.2.2.1 String "A" "MSFT" (by decide)⟩,
    ⟨by decide, debounce_guard_behavior.2.2.2 String "" (by decide)⟩⟩

end OpenHedge
